import Mathlib

/-!
A verification development for the peer-to-peer networking core of
concordium-node.  The repository contains three generations of the
networking code; each section below embeds the generation that the
corresponding functions live in:

* `Connectivity` embeds `src/concordium-node/src/p2p/connectivity.rs`
  (broadcast fan-out, accept/connect, soft bans).
* `ConnMod` embeds `src/concordium-node/src/connection/mod.rs`
  (per-message processing, deduplication queues).
* `OldP2p` embeds `src/concordium-node/src/p2p.rs`
  (length-prefixed framing, Kademlia-style buckets).

Machine integers are modelled as `Nat` (no arithmetic here can overflow:
all values are bounded well below `2^32`/`2^64` by construction),
byte buffers as `List Nat`, and the XxHash64 digest as an abstract
function parameter (the spec treats cryptographic primitives as black
boxes).  Fallible operations return `Option`.
-/

namespace Connectivity

/-- Peer types.  Modelled from the spec: `PeerType. Variants
{Node, Bootstrapper}` (the declaration lives in `common/`, which is not
under `src/`; every use in `src/` only distinguishes these two variants). -/
inductive PeerType where
  | Node
  | Bootstrapper
deriving DecidableEq, Repr

/-- A socket address: ip plus port (`std::net::SocketAddr`). -/
structure SocketAddr where
  ip   : Nat
  port : Nat
deriving DecidableEq, Repr

/-- Ban identifiers.  Modelled from the spec: `BanId. Variants
{ById(NodeId), ByIp(IpAddr), BySocket(SocketAddr)}` (the declaration is in
`p2p/bans.rs`, which is not under `src/`; `connectivity.rs` constructs the
`Ip` and `Socket` variants). -/
inductive BanId where
  | Id (id : Nat)
  | Ip (ip : Nat)
  | Socket (addr : SocketAddr)
deriving DecidableEq, Repr

/-- An established connection as seen by `connectivity.rs`: these live in
the node's `connections()` map, which holds exactly the post-handshake
connections, so the remote id is always set. -/
structure Conn where
  token     : Nat
  addr      : SocketAddr
  id        : Nat
  peer_type : PeerType
  networks  : List Nat
deriving DecidableEq, Repr

/-- The destination of a `NetworkPacket`. -/
inductive PacketDestination where
  | Direct (receiver : Nat)
  | Broadcast (dont_relay_to : List Nat)
deriving DecidableEq, Repr

/-- A `NetworkPacket` (new-generation `network` module). -/
structure NetworkPacket where
  destination : PacketDestination
  network_id  : Nat
  message     : List Nat
deriving DecidableEq, Repr

/-- The slice of `P2PNode` state that `process_network_packet`, `accept`
and `connect` consult.  `soft_bans` is a map `BanId -> expiry instant`
(`Instant` modelled as `Nat`); `candidates` only ever has its remote
addresses inspected by the embedded functions, so it is the list of those
addresses. -/
structure NodeState where
  self_addr                  : SocketAddr
  self_id                    : Nat
  self_peer_type             : PeerType
  candidates                 : List SocketAddr
  connections                : List Conn
  soft_bans                  : List (BanId × Nat)
  relay_broadcast_percentage : ℚ
  hard_connection_limit      : Nat
  max_allowed_nodes          : Nat
  next_token                 : Nat
deriving Repr

/-- Modelled from the spec: `get_node_peer_ids` (defined in
`p2p/maintenance.rs`, not under `src/`) returns the ids of the
post-handshake peers of type `Node`; the established-connections map holds
exactly the post-handshake connections. -/
def get_node_peer_ids (st : NodeState) : List Nat :=
  (st.connections.filter (fun c => c.peer_type == PeerType.Node)).map (fun c => c.id)

/-- The `is_valid_broadcast_target` from `connectivity.rs`: not a
bootstrapper, not in the skip list, and on the packet's network.
(The source unwraps `conn.remote_peer.id`, which is always set for the
established connections this is applied to.) -/
def is_valid_broadcast_target (conn : Conn) (peers_to_skip : List Nat)
    (network_id : Nat) : Bool :=
  conn.peer_type != PeerType.Bootstrapper
    && !(peers_to_skip.contains conn.id)
    && conn.networks.contains network_id

/-- The `P2PNode::process_network_packet` from `connectivity.rs`, returning
the list of connections the serialized packet is sent to
(`send_over_all_connections` sends to every connection passing the
filter).  `sample` stands for `SliceRandom::choose_multiple` with a fresh
thread rng: it picks the requested number of elements from the list.  The
`relay_broadcast_percentage` is an `f64` in the source; it is modelled as
a rational (every concrete value used below is exactly representable). -/
def process_network_packet (sample : List Nat → Nat → List Nat)
    (st : NodeState) (pkt : NetworkPacket) : List Conn :=
  let peers_to_skip : List Nat :=
    match pkt.destination with
    | PacketDestination.Direct _ => []
    | PacketDestination.Broadcast dont_relay_to =>
      if st.relay_broadcast_percentage < 1 then
        let peers := (get_node_peer_ids st).filter
          (fun id => !(dont_relay_to.contains id))
        let peers_to_take :=
          (⌊(peers.length : ℚ) * st.relay_broadcast_percentage⌋).toNat
        sample peers peers_to_take
      else
        dont_relay_to
  match pkt.destination with
  | PacketDestination.Direct receiver =>
    st.connections.filter (fun c => c.id == receiver)
  | PacketDestination.Broadcast _ =>
    st.connections.filter
      (fun c => is_valid_broadcast_target c peers_to_skip pkt.network_id)

/-- The peers eligible for a broadcast according to spec section 4.8:
post-handshake (member of the established map), not a bootstrapper, on the
packet's network and outside the exclusion list.  This follows the spec's
words; it is the reference point the fan-out claims are compared with. -/
def eligiblePeers (st : NodeState) (dont_relay_to : List Nat)
    (network_id : Nat) : List Conn :=
  st.connections.filter (fun c =>
    c.peer_type != PeerType.Bootstrapper
      && c.networks.contains network_id
      && !(dont_relay_to.contains c.id))

/-- Modelled from the spec: soft bans are populated on dial failure
"with a fixed TTL"; the constant `UNREACHABLE_EXPIRATION_SECS` lives in
`configuration.rs`, which is not under `src/`.  Its concrete value is
immaterial to every claim below. -/
def UNREACHABLE_EXPIRATION_SECS : Nat := 86400

/-- Modelled from the spec: `get_peer_stats(Some(PeerType::Node)).len()`
(from `p2p/maintenance.rs`, not under `src/`) counts the established
(post-handshake) peers of type `Node`. -/
def peerStatsNodeCount (st : NodeState) : Nat :=
  (st.connections.filter (fun c => c.peer_type == PeerType.Node)).length

/-- The `accept` from `connectivity.rs`.  The incoming socket's remote address
is `addr`.  `none` models the `bail!` early returns (no state is mutated
on any of them); on success the new candidate connection is registered
and its poll token returned. -/
def accept (st : NodeState) (addr : SocketAddr) : Option (NodeState × Nat) :=
  if st.self_peer_type == PeerType.Node
      && decide (st.candidates.length + st.connections.length ≥
                   st.hard_connection_limit) then
    none
  else if st.candidates.contains addr
      || st.connections.any (fun c => c.addr == addr) then
    none
  else if (st.soft_bans.map Prod.fst).any (fun b => b == BanId.Ip addr.ip) then
    none
  else
    some ({ st with
              candidates := st.candidates ++ [addr],
              next_token := st.next_token + 1 },
          st.next_token)

/-- The result of `connect`: whether it succeeded, plus the node state
afterwards (a failed dial mutates the state by inserting a soft ban, so
the state is returned in the failure case as well). -/
structure ConnectResult where
  ok    : Bool
  state : NodeState
deriving Repr

/-- The `connect` from `connectivity.rs`.  `dial_ok` stands for the outcome
of `TcpStream::connect` (the network being external input), `now` for
`Instant::now()`.  The soft-ban map insert replaces any entry with the
same key, like `HashMap::insert`. -/
def connect (st : NodeState) (peer_type : PeerType) (peer_addr : SocketAddr)
    (peer_id : Option Nat) (dial_ok : Bool) (now : Nat) : ConnectResult :=
  if peer_type == PeerType.Node
      && decide (peerStatsNodeCount st ≥ st.max_allowed_nodes) then
    ⟨false, st⟩
  else if st.self_addr == peer_addr || peer_id == some st.self_id then
    ⟨false, st⟩
  else if st.soft_bans.any
      (fun b => b.1 == BanId.Ip peer_addr.ip || b.1 == BanId.Socket peer_addr) then
    ⟨false, st⟩
  else if st.candidates.contains peer_addr then
    ⟨false, st⟩
  else if st.connections.any
      (fun c => c.addr == peer_addr || (peer_id.isSome && some c.id == peer_id)) then
    ⟨false, st⟩
  else if dial_ok then
    ⟨true, { st with
               candidates := st.candidates ++ [peer_addr],
               next_token := st.next_token + 1 }⟩
  else
    ⟨false,
      if peer_type == PeerType.Node then
        { st with soft_bans :=
            (st.soft_bans.filter (fun b => b.1 != BanId.Socket peer_addr))
              ++ [(BanId.Socket peer_addr, now + UNREACHABLE_EXPIRATION_SECS)] }
      else st⟩

end Connectivity

namespace ConnMod

open Connectivity (PeerType)

/-- A `HybridBuf`: a byte buffer with a read position. -/
structure HybridBuf where
  data : List Nat
  pos  : Nat
deriving DecidableEq, Repr

/-- The bytes from the current position to the end. -/
def HybridBuf.remaining_bytes (b : HybridBuf) : List Nat := b.data.drop b.pos

/-- The `read_u16::<Endianness>` (big-endian on the wire): consume two bytes,
failing if fewer remain. -/
def HybridBuf.read_u16 (b : HybridBuf) : Option (Nat × HybridBuf) :=
  match b.data.drop b.pos with
  | b0 :: b1 :: _ => some (b0 * 256 + b1, { b with pos := b.pos + 2 })
  | _ => none

/-- The `rewind`: reset the read position to the start. -/
def HybridBuf.rewind (b : HybridBuf) : HybridBuf := { b with pos := 0 }

/-- The `circular_queue::CircularQueue` over 8-byte digests (digests modelled
as `Nat`).  `items` is most-recent-first; pushing onto a full queue
overwrites the oldest element. -/
structure CircularQueue where
  capacity : Nat
  items    : List Nat
deriving DecidableEq, Repr

/-- The `CircularQueue::push`: add to the front; if the queue is at capacity
the oldest (last) element is dropped. -/
def CircularQueue.push (q : CircularQueue) (x : Nat) : CircularQueue :=
  { q with items :=
      if q.items.length ≥ q.capacity then x :: q.items.dropLast
      else x :: q.items }

/-- The `queue.iter().any(|h| h == &hash)`. -/
def CircularQueue.mem (q : CircularQueue) (x : Nat) : Bool := q.items.contains x

/-- The four per-class deduplication queues from `connection/mod.rs`. -/
structure DeduplicationQueues where
  finalizations : CircularQueue
  transactions  : CircularQueue
  blocks        : CircularQueue
  fin_records   : CircularQueue
deriving DecidableEq, Repr

def SHORT_DEDUP_SIZE : Nat := 64

def LONG_QUEUE_SIZE : Nat := 32 * 1024

/-- The `DeduplicationQueues::default`. -/
def DeduplicationQueues.default : DeduplicationQueues where
  finalizations := ⟨LONG_QUEUE_SIZE, []⟩
  transactions  := ⟨LONG_QUEUE_SIZE, []⟩
  blocks        := ⟨SHORT_DEDUP_SIZE, []⟩
  fin_records   := ⟨SHORT_DEDUP_SIZE, []⟩

/-- The four payload classes subject to deduplication. -/
inductive PacketType where
  | Block
  | Transaction
  | FinalizationMessage
  | FinalizationRecord
deriving DecidableEq, Repr

/-- Modelled from the spec: "Packet payload classes are identified by a
`u16` tag at the start of the payload".  `PacketType::try_from` lives in
the `concordium-common` crate, which is not under `src/`; the concrete
numbering chosen here is immaterial to every claim below (tags outside
the four known classes decode to `none`, which covers both the `Err`
case and the other `Ok` variants of the source enum, none of which are
deduplicated). -/
def PacketType.tryFrom (tag : Nat) : Option PacketType :=
  if tag == 0 then some PacketType.Block
  else if tag == 1 then some PacketType.Transaction
  else if tag == 2 then some PacketType.FinalizationMessage
  else if tag == 3 then some PacketType.FinalizationRecord
  else none

/-- The queue a payload class deduplicates through. -/
def classQueue (dq : DeduplicationQueues) : PacketType → CircularQueue
  | PacketType.Block => dq.blocks
  | PacketType.Transaction => dq.transactions
  | PacketType.FinalizationMessage => dq.finalizations
  | PacketType.FinalizationRecord => dq.fin_records

/-- Replace the queue of one payload class. -/
def setClassQueue (dq : DeduplicationQueues) (q : CircularQueue) :
    PacketType → DeduplicationQueues
  | PacketType.Block => { dq with blocks := q }
  | PacketType.Transaction => { dq with transactions := q }
  | PacketType.FinalizationMessage => { dq with finalizations := q }
  | PacketType.FinalizationRecord => { dq with fin_records := q }

/-- The `dedup_with` from `connection/mod.rs`: hash the remaining bytes of
the message with XxHash64 (`H` is the digest function, treated as a black
box); a miss pushes the digest and reports `false`, a hit reports `true`
without touching the queue. -/
def dedup_with (H : List Nat → Nat) (message : HybridBuf)
    (queue : CircularQueue) : Bool × CircularQueue :=
  let hash := H message.remaining_bytes
  if !(queue.mem hash) then (false, queue.push hash)
  else (true, queue)

/-- A `NetworkPacket` as inspected by `connection/mod.rs` (only its
payload buffer `message` is read there; the routing fields are carried
along untouched, `network_id` standing in for them). -/
structure NetworkPacket where
  network_id : Nat
  message    : HybridBuf
deriving DecidableEq, Repr

/-- The `NetworkRequest` variants. -/
inductive NetworkRequest where
  | Ping
  | GetPeers
  | Handshake
  | JoinNetwork (net : Nat)
  | LeaveNetwork (net : Nat)
  | BanNode
  | UnbanNode
  | Retransmit
deriving DecidableEq, Repr

/-- The `NetworkResponse` variants. -/
inductive NetworkResponse where
  | Pong
  | PeerList
  | Handshake
deriving DecidableEq, Repr

/-- The payload of a decoded `NetworkMessage`. -/
inductive NetworkMessagePayload where
  | NetworkRequest (req : NetworkRequest)
  | NetworkResponse (resp : NetworkResponse)
  | NetworkPacket (packet : NetworkPacket)
deriving DecidableEq, Repr

/-- The `Connection::is_packet_duplicate`: consume the leading `u16` class
tag, deduplicate the rest of the payload through the class's queue, then
rewind the payload buffer.  `none` models the `Err` propagated when the
tag cannot be read. -/
def is_packet_duplicate (H : List Nat → Nat) (packet : NetworkPacket)
    (dq : DeduplicationQueues) :
    Option (Bool × NetworkPacket × DeduplicationQueues) :=
  match packet.message.read_u16 with
  | none => none
  | some (tag, message1) =>
    let res : Bool × DeduplicationQueues :=
      match PacketType.tryFrom tag with
      | some cls =>
        let r := dedup_with H message1 (classQueue dq cls)
        (r.1, setClassQueue dq r.2 cls)
      | none => (false, dq)
    some (res.1, { packet with message := message1.rewind }, res.2)

/-- The connection state read and written by `process_message`.
`remote_peer_type` is carried in the state but never consulted by the
embedded code: the source's `update_last_seen` tests the LOCAL node's
peer type (`self.handler().peer_type()`), not the remote peer's. -/
structure ConnState where
  is_post_handshake : Bool
  remote_peer_type  : PeerType
  last_seen         : Nat
  messages_received : Nat
deriving DecidableEq, Repr

/-- The node-level context `process_message` consults through
`self.handler()`: the local node's peer type, the `no_trust_bans`
configuration flag, whether RPC forwarding is on, and the current
timestamp (`get_current_stamp`). -/
structure NodeCtx where
  node_peer_type : PeerType
  no_trust_bans  : Bool
  is_rpc_online  : Bool
  now            : Nat
deriving DecidableEq, Repr

/-- The `Connection::update_last_seen`: the timestamp is refreshed only when
the local node is not a bootstrapper. -/
def update_last_seen (ctx : NodeCtx) (conn : ConnState) : ConnState :=
  if ctx.node_peer_type != PeerType.Bootstrapper then
    { conn with last_seen := ctx.now }
  else conn

/-- Whether a payload is a Handshake request or a Handshake response:
the two payloads exempt from the post-handshake gate. -/
def isHandshakePayload : NetworkMessagePayload → Bool
  | NetworkMessagePayload.NetworkRequest NetworkRequest.Handshake => true
  | NetworkMessagePayload.NetworkResponse NetworkResponse.Handshake => true
  | _ => false

/-- The observable outcome of `process_message`: the `Fallible` result
(`ok = false` models `Err`), the updated connection stats and dedup
queues, the payload handed to `handle_incoming_message` (if any), and
whether the message was forwarded as a packet
(`forward_network_packet`) or as a request (`forward_network_message`). -/
structure Outcome where
  ok               : Bool
  conn             : ConnState
  queues           : DeduplicationQueues
  handled          : Option NetworkMessagePayload
  forwarded_packet : Bool
  forwarded_msg    : Bool
deriving DecidableEq, Repr

/-- The tail of `process_message` after the packet-specific
pre-processing: the post-handshake gate (messages other than handshakes
`bail!` on a pre-handshake connection) followed by the forwarding
decision. -/
def processRest (ctx : NodeCtx) (conn : ConnState) (dq : DeduplicationQueues)
    (payload : NetworkMessagePayload) : Outcome :=
  let is_msg_processable := isHandshakePayload payload || conn.is_post_handshake
  if is_msg_processable then
    let is_msg_forwardable : Bool :=
      match payload with
      | NetworkMessagePayload.NetworkRequest req =>
        match req with
        | NetworkRequest.BanNode => !ctx.no_trust_bans
        | NetworkRequest.UnbanNode => !ctx.no_trust_bans
        | _ => false
      | NetworkMessagePayload.NetworkResponse _ => false
      | NetworkMessagePayload.NetworkPacket _ => ctx.is_rpc_online
    match payload, is_msg_forwardable with
    | NetworkMessagePayload.NetworkPacket _, true =>
      ⟨true, conn, dq, some payload, true, false⟩
    | _, true => ⟨true, conn, dq, some payload, false, true⟩
    | _, false => ⟨true, conn, dq, some payload, false, false⟩
  else
    ⟨false, conn, dq, none, false, false⟩

/-- The `Connection::process_message` from `connection/mod.rs`.  `des` is the
result of `NetworkMessage::deserialize` (the wire codec lives outside
`src/`; the claims quantify over decoded messages), with `none` modelling
a failed parse, which is handled and reported as `Ok`.  Stats are updated
first; packets are dropped wholesale on a bootstrapper node and
deduplicated otherwise; then the post-handshake gate and the forwarding
decision run. -/
def process_message (H : List Nat → Nat) (ctx : NodeCtx) (conn : ConnState)
    (dq : DeduplicationQueues) (des : Option NetworkMessagePayload) : Outcome :=
  let conn1 := update_last_seen ctx conn
  let conn2 := { conn1 with messages_received := conn1.messages_received + 1 }
  match des with
  | none => ⟨true, conn2, dq, none, false, false⟩
  | some payload =>
    match payload with
    | NetworkMessagePayload.NetworkPacket packet =>
      if ctx.node_peer_type == PeerType.Bootstrapper then
        ⟨true, conn2, dq, none, false, false⟩
      else
        match is_packet_duplicate H packet dq with
        | none => ⟨false, conn2, dq, none, false, false⟩
        | some (true, _, dq1) => ⟨true, conn2, dq1, none, false, false⟩
        | some (false, packet1, dq1) =>
          processRest ctx conn2 dq1 (NetworkMessagePayload.NetworkPacket packet1)
    | _ => processRest ctx conn2 dq payload

end ConnMod

namespace OldP2p

def BUCKET_SIZE : Nat := 20

def KEY_SIZE : Nat := 256

/-- Modelled from the spec: a peer record carries its `NodeId` (an
opaque 64-bit identifier, here a `Nat`) and a `last_seen` stamp (the
`P2PPeer` declaration lives in `common/`, which is not under `src/`;
`p2p.rs` compares bucket entries with `ele.0 != *node`, modelled by the
derived equality — the bucket facts below are insensitive to whether
that comparison also involves further fields, because they duplicate a
single record value). -/
structure P2PPeer where
  id        : Nat
  last_seen : Nat
deriving DecidableEq, Repr

/-- A bucket entry: a peer together with its network ids. -/
abbrev BucketEntry := P2PPeer × List Nat

/-- The `Buckets` from `p2p.rs`: `KEY_SIZE` buckets indexed `0..KEY_SIZE`
(the source's `HashMap<u16, Vec<_>>` is total on that range by
construction in `new`, modelled as a list whose position is the key). -/
structure Buckets where
  buckets : List (List BucketEntry)
deriving DecidableEq, Repr

/-- The `Buckets::new`: `KEY_SIZE` empty buckets. -/
def Buckets.new : Buckets := ⟨List.replicate KEY_SIZE []⟩

/-- The `Buckets::distance`: XOR of the two node ids (`BigUint` bitwise xor). -/
def distance (from_id to_id : Nat) : Nat := Nat.xor from_id to_id

/-- The loop body of `insert_into_bucket`: walk the buckets in key
order; every visited bucket is first purged of entries equal to `node`
(`retain`), and the first bucket whose index `i` satisfies
`2^i <= dist < 2^(i+1)` receives the newcomer at the tail — evicting the
entry at position 0 when the bucket holds `BUCKET_SIZE` or more — after
which the walk stops (`break`), leaving later buckets untouched. -/
def insertLoop (node : P2PPeer) (nids : List Nat) (dist : Nat) :
    Nat → List (List BucketEntry) → List (List BucketEntry)
  | _, [] => []
  | i, b :: rest =>
    let b1 := b.filter (fun ele => ele.fst != node)
    if 2 ^ i ≤ dist ∧ dist < 2 ^ (i + 1) then
      (if b1.length ≥ BUCKET_SIZE then (b1.drop 1).concat (node, nids)
       else b1.concat (node, nids)) :: rest
    else
      b1 :: insertLoop node nids dist (i + 1) rest

/-- The `Buckets::insert_into_bucket` from `p2p.rs`. -/
def Buckets.insert_into_bucket (bk : Buckets) (node : P2PPeer) (own_id : Nat)
    (nids : List Nat) : Buckets :=
  ⟨insertLoop node nids (distance own_id node.id) 0 bk.buckets⟩

/-- The `Buckets::update_network_ids` from `p2p.rs`: the loop body runs
`retain` followed by `push` and then `break`s unconditionally, so only
bucket 0 is ever touched — the node is appended there whatever its
XOR distance is. -/
def Buckets.update_network_ids (bk : Buckets) (node : P2PPeer)
    (nids : List Nat) : Buckets :=
  match bk.buckets with
  | [] => ⟨[]⟩
  | b :: rest =>
    ⟨((b.filter (fun ele => ele.fst != node)).concat (node, nids)) :: rest⟩

/-- The `Buckets::clean_peers_older_than` from `p2p.rs`: every bucket keeps
the entries whose `last_seen` is at least the cutoff. -/
def Buckets.clean_peers_older_than (bk : Buckets) (older_than : Nat) : Buckets :=
  ⟨bk.buckets.map (fun b =>
      b.filter (fun ele => ele.fst.last_seen ≥ older_than))⟩

/-- How many bucket entries (across all buckets) carry the given NodeId. -/
def Buckets.countId (bk : Buckets) (id : Nat) : Nat :=
  (bk.buckets.map (fun b =>
      (b.filter (fun ele => ele.fst.id == id)).length)).sum

/-- The four `P2PNodeMode` variants from `p2p.rs`. -/
inductive P2PNodeMode where
  | NormalMode
  | NormalPrivateMode
  | BootstrapperMode
  | BootstrapperPrivateMode
deriving DecidableEq, Repr

/-- Modelled from the spec: the protocol tag bytes identifying direct
and broadcast packet messages (ASCII digit strings defined in `common/`,
not under `src/`; only their inequality matters here). -/
def PROTOCOL_MESSAGE_TYPE_DIRECT_MESSAGE : List Nat := [48, 48, 49, 48]

/-- Modelled from the spec: see `PROTOCOL_MESSAGE_TYPE_DIRECT_MESSAGE`. -/
def PROTOCOL_MESSAGE_TYPE_BROADCASTED_MESSAGE : List Nat := [48, 48, 49, 49]

/-- The per-connection framing state from `p2p.rs` (the fields of
`Connection` read and written by `incoming_plaintext` and its helpers).
`closing` is set by `close()`; `mode` is the connection's copy of the
node mode. -/
structure ConnFraming where
  expected_size  : Nat
  currently_read : Nat
  pkt_buffer     : Option (List Nat)
  pkt_valid      : Bool
  pkt_validated  : Bool
  closing        : Bool
  mode           : P2PNodeMode
deriving DecidableEq, Repr

/-- The `clear_buffer` from `p2p.rs`. -/
def clear_buffer (st : ConnFraming) : ConnFraming :=
  { st with pkt_buffer := none, currently_read := 0, expected_size := 0 }

/-- The `setup_buffer` from `p2p.rs`. -/
def setup_buffer (st : ConnFraming) : ConnFraming :=
  { st with pkt_buffer := some [], pkt_valid := false, pkt_validated := false }

/-- The `append_buffer` from `p2p.rs`. -/
def append_buffer (st : ConnFraming) (new_data : List Nat) : ConnFraming :=
  match st.pkt_buffer with
  | some buf =>
    { st with pkt_buffer := some (buf ++ new_data),
              currently_read := st.currently_read + new_data.length }
  | none => st

/-- The `update_buffer_read_stats` from `p2p.rs`. -/
def update_buffer_read_stats (st : ConnFraming) (buf_len : Nat) : ConnFraming :=
  { st with currently_read := st.currently_read + buf_len }

/-- The `validate_packet` from `p2p.rs`: once at least 132 buffered bytes
exist, a bootstrapper-mode connection closes on packet messages (bytes
24..28 holding a packet tag), while a normal-mode connection marks the
packet valid and validated. -/
def validate_packet (st : ConnFraming) : ConnFraming :=
  if !st.pkt_validated then
    let buff : Option (List Nat) :=
      match st.pkt_buffer with
      | some bytebuf =>
        if bytebuf.length ≥ 132 then some ((bytebuf.drop 24).take 4) else none
      | none => none
    match buff with
    | some bufdata =>
      if st.mode == P2PNodeMode.BootstrapperMode
          || st.mode == P2PNodeMode.BootstrapperPrivateMode then
        if bufdata == PROTOCOL_MESSAGE_TYPE_DIRECT_MESSAGE
            || bufdata == PROTOCOL_MESSAGE_TYPE_BROADCASTED_MESSAGE then
          { st with pkt_buffer := none, currently_read := 0,
                    expected_size := 0, closing := true }
        else st
      else
        { st with pkt_valid := true, pkt_validated := true }
    | none => st
  else st

/-- A 4-byte big-endian word. -/
def read_u32_be (b0 b1 b2 b3 : Nat) : Nat :=
  ((b0 * 256 + b1) * 256 + b2) * 256 + b3

/-- The `Connection::incoming_plaintext` from `p2p.rs`, with
`process_complete_packet` abstracted as emitting the completed frame
(its per-message dispatch is independent of the framing claims).  The
source function is recursive; `fuel` bounds the recursion depth so that
the definition is structural (every theorem below supplies ample fuel;
on the source's reachable states, where `currently_read` never exceeds
`expected_size`, each recursive call consumes input bytes or zeroes
`expected_size`, so the recursion depth is bounded by the buffer
length plus one). -/
def incoming_plaintext (fuel : Nat) (st : ConnFraming) (buf : List Nat) :
    ConnFraming × List (List Nat) :=
  match fuel with
  | 0 => (st, [])
  | fuel + 1 =>
    let st := validate_packet st
    if st.expected_size > 0 && st.currently_read == st.expected_size then
      let out := if st.pkt_valid || !st.pkt_validated then
          [st.pkt_buffer.getD []] else []
      let st := clear_buffer st
      let r := incoming_plaintext fuel st buf
      (r.1, out ++ r.2)
    else if st.expected_size > 0
        && decide (buf.length ≤ st.expected_size - st.currently_read) then
      let st := if st.pkt_valid || !st.pkt_validated then append_buffer st buf
                else update_buffer_read_stats st buf.length
      if st.expected_size == st.currently_read then
        let out := if st.pkt_valid || !st.pkt_validated then
            [st.pkt_buffer.getD []] else []
        (clear_buffer st, out)
      else (st, [])
    else if st.expected_size > 0
        && decide (buf.length > st.expected_size - st.currently_read) then
      let to_take := st.expected_size - st.currently_read
      let stOut :=
        if st.pkt_valid || !st.pkt_validated then
          let st := append_buffer st (buf.take to_take)
          (st, [st.pkt_buffer.getD []])
        else (st, ([] : List (List Nat)))
      let st := clear_buffer stOut.1
      let r := incoming_plaintext fuel st (buf.drop to_take)
      (r.1, stOut.2 ++ r.2)
    else if buf.length ≥ 4 then
      match buf with
      | b0 :: b1 :: b2 :: b3 :: rest =>
        let size := read_u32_be b0 b1 b2 b3
        if size > 268435456 then
          let st := { st with expected_size := 0 }
          incoming_plaintext fuel st rest
        else
          let st := setup_buffer { st with expected_size := size }
          if decide (buf.length > 4) then incoming_plaintext fuel st rest
          else (st, [])
      | _ => (st, [])
    else (st, [])

end OldP2p

namespace Connectivity

/-- Unfolding lemma for broadcasts under a sub-unity relay percentage:
the skip set handed to the target filter is the random sample of size
`⌊pool.length * r⌋` drawn from the Node peer ids outside the exclusion
list — the exclusion list itself is no longer part of the skip set. -/
theorem process_network_packet_broadcast_lt (sample : List Nat → Nat → List Nat)
    (st : NodeState) (L : List Nat) (nid : Nat) (msg : List Nat)
    (hr : st.relay_broadcast_percentage < 1) :
    process_network_packet sample st ⟨PacketDestination.Broadcast L, nid, msg⟩
      = st.connections.filter (fun c => is_valid_broadcast_target c
          (sample ((get_node_peer_ids st).filter (fun id => !(L.contains id)))
            ((⌊((((get_node_peer_ids st).filter (fun id => !(L.contains id))).length : ℚ)
                * st.relay_broadcast_percentage)⌋).toNat)) nid) := by
  simp [process_network_packet, hr]

/-- One possible draw of `choose_multiple`: the first `k` elements.  Any
`k`-element subset is a possible outcome of the rng, so an execution
using this draw is a genuine execution of the source; for `k = 0` it is
the only possible draw. -/
def sampleTake (xs : List Nat) (k : Nat) : List Nat := xs.take k

/-- A Node-type post-handshake peer on network 9. -/
def connOfId (i : Nat) : Conn := ⟨i, ⟨10 + i, 800⟩, i, PeerType.Node, [9]⟩

/-- Five established Node peers on network 9 and a relay percentage of
2/5 (= 0.4, exactly representable in `f64`). -/
def stFanout : NodeState :=
  { self_addr := ⟨1, 1⟩, self_id := 0, self_peer_type := PeerType.Node,
    candidates := [],
    connections := [connOfId 1, connOfId 2, connOfId 3, connOfId 4, connOfId 5],
    soft_bans := [], relay_broadcast_percentage := 2/5,
    hard_connection_limit := 50, max_allowed_nodes := 50, next_token := 6 }

/-- C1: the claim states that with `relay_broadcast_percentage = r < 1`
a broadcast is sent to a uniformly random subsample of the eligible
peers of size `⌊r * eligible⌋`.  Evaluating the code at the failing
input (five eligible Node peers on the packet's network, `r = 2/5`,
empty exclusion list, the sample drawing the first two ids): the claim
demands `⌊2/5 * 5⌋ = 2` receivers, but the code sends to 3 — the sampled
ids are placed in `peers_to_skip`, so the packet goes to the complement
of the sample, not to the sample. -/
theorem relay_fanout_inverted_at_failing_input :
    (eligiblePeers stFanout [] 9).length = 5
    ∧ ⌊((eligiblePeers stFanout [] 9).length : ℚ) * stFanout.relay_broadcast_percentage⌋ = 2
    ∧ (process_network_packet sampleTake stFanout
        ⟨PacketDestination.Broadcast [], 9, [0]⟩).length = 3 := by
  refine ⟨by decide, ?_, ?_⟩
  · have h5 : (eligiblePeers stFanout [] 9).length = 5 := by decide
    rw [h5, show stFanout.relay_broadcast_percentage = 2/5 from rfl]
    norm_num
  · rw [process_network_packet_broadcast_lt sampleTake stFanout [] 9 [0]
      (by rw [show stFanout.relay_broadcast_percentage = 2/5 from rfl]; norm_num)]
    have hpool : ((get_node_peer_ids stFanout).filter
        (fun id => !(([] : List Nat).contains id))) = [1, 2, 3, 4, 5] := by decide
    rw [hpool]
    have h2 : ⌊(([1, 2, 3, 4, 5] : List Nat).length : ℚ)
        * stFanout.relay_broadcast_percentage⌋ = 2 := by
      rw [show stFanout.relay_broadcast_percentage = 2/5 from rfl]
      norm_num
    rw [h2]
    decide

/-- One established Node peer with id 7 on network 5, relay percentage 0. -/
def stExcl : NodeState :=
  { self_addr := ⟨1, 1⟩, self_id := 0, self_peer_type := PeerType.Node,
    candidates := [],
    connections := [⟨1, ⟨2, 2⟩, 7, PeerType.Node, [5]⟩],
    soft_bans := [], relay_broadcast_percentage := 0,
    hard_connection_limit := 50, max_allowed_nodes := 50, next_token := 2 }

/-- C6: the claim states that a connection receives a relayed broadcast
only if (among other conditions) its remote peer id is not in the
packet's exclusion list.  Evaluating the code at the failing input
(`relay_broadcast_percentage = 0 < 1`, a single Node peer with id 7 on
network 5, exclusion list `[7]`; the empty sample is the only possible
draw): the peer with id 7 receives the packet even though `7` is in the
exclusion list — in the sub-unity branch the skip set is the random
sample, and the exclusion list is never consulted. -/
theorem exclusion_list_ignored_at_failing_input :
    (process_network_packet sampleTake stExcl
        ⟨PacketDestination.Broadcast [7], 5, []⟩).map Conn.id = [7] := by
  rw [process_network_packet_broadcast_lt sampleTake stExcl [7] 5 []
    (by rw [show stExcl.relay_broadcast_percentage = 0 from rfl]; norm_num)]
  have hpool : ((get_node_peer_ids stExcl).filter
      (fun id => !(([7] : List Nat).contains id))) = [] := by decide
  rw [hpool]
  have h0 : ⌊((([] : List Nat).length : ℚ) * stExcl.relay_broadcast_percentage)⌋ = 0 := by
    rw [show stExcl.relay_broadcast_percentage = 0 from rfl]
    norm_num
  rw [h0]
  decide

end Connectivity

namespace Connectivity

/-- An empty Node-type node state used by the soft-ban counterexample. -/
def stSoftBan : NodeState :=
  { self_addr := ⟨0, 0⟩, self_id := 0, self_peer_type := PeerType.Node,
    candidates := [], connections := [], soft_bans := [],
    relay_broadcast_percentage := 1, hard_connection_limit := 10,
    max_allowed_nodes := 10, next_token := 1 }

/-- C7 counterexample: after a failed dial to socket (ip 1, port 1) the
soft-ban map holds an unexpired `Socket` entry for it, yet a subsequent
`accept` from that very socket succeeds (only `Ip` keys are consulted on
accept), and a failed dial to a Bootstrapper-type peer records no soft
ban at all — both contradicting the claim as stated. -/
theorem softban_accept_counterexample :
    ((connect stSoftBan PeerType.Node ⟨1, 1⟩ none false 100).state.soft_bans
        = [(BanId.Socket ⟨1, 1⟩, 100 + UNREACHABLE_EXPIRATION_SECS)])
    ∧ (accept (connect stSoftBan PeerType.Node ⟨1, 1⟩ none false 100).state
        ⟨1, 1⟩).isSome = true
    ∧ (connect stSoftBan PeerType.Bootstrapper ⟨2, 2⟩ none false 100).state.soft_bans
        = [] := by
  decide

/-- C7 (amended): a failed dial never yields a connection; a failed dial
to a Node-type peer (passing the earlier checks) records a `Socket` soft
ban for the target with the fixed TTL; a subsequent dial to a socket
whose ip or socket is in the soft-ban map is rejected with no state
change; and a subsequent accept is rejected when the map holds an `Ip`
entry for the remote ip (socket entries are not consulted on accept, and
expiry stamps are not consulted by either lookup). -/
theorem softban_dial_and_lookup (st : NodeState) (addr : SocketAddr)
    (pid : Option Nat) (now : Nat) (pt : PeerType) (d : Bool) :
    ((connect st pt addr pid false now).ok = false)
    ∧ (peerStatsNodeCount st < st.max_allowed_nodes →
       st.self_addr ≠ addr →
       pid ≠ some st.self_id →
       (∀ b ∈ st.soft_bans, b.1 ≠ BanId.Ip addr.ip ∧ b.1 ≠ BanId.Socket addr) →
       addr ∉ st.candidates →
       (∀ c ∈ st.connections, c.addr ≠ addr ∧ some c.id ≠ pid) →
       (connect st PeerType.Node addr pid false now).state.soft_bans
         = st.soft_bans ++ [(BanId.Socket addr, now + UNREACHABLE_EXPIRATION_SECS)])
    ∧ ((∃ b ∈ st.soft_bans, b.1 = BanId.Ip addr.ip ∨ b.1 = BanId.Socket addr) →
       (pt = PeerType.Node → peerStatsNodeCount st < st.max_allowed_nodes) →
       st.self_addr ≠ addr →
       pid ≠ some st.self_id →
       connect st pt addr pid d now = ⟨false, st⟩)
    ∧ ((∃ b ∈ st.soft_bans, b.1 = BanId.Ip addr.ip) →
       (st.self_peer_type = PeerType.Node →
         st.candidates.length + st.connections.length < st.hard_connection_limit) →
       addr ∉ st.candidates →
       (∀ c ∈ st.connections, c.addr ≠ addr) →
       accept st addr = none) := by
  refine ⟨?_, ?_, ?_, ?_⟩
  · unfold connect
    split
    · rfl
    · split
      · rfl
      · split
        · rfl
        · split
          · rfl
          · split
            · rfl
            · rfl
  · intro h1 h2a h2b h3 h4 h5
    have hc1 : ¬ (peerStatsNodeCount st ≥ st.max_allowed_nodes) := not_le.mpr h1
    have hfilt : st.soft_bans.filter (fun b => b.1 != BanId.Socket addr)
        = st.soft_bans := by
      apply List.filter_eq_self.mpr
      intro b hb
      simpa using (h3 b hb).2
    simp only [connect]
    rw [if_neg, if_neg, if_neg, if_neg, if_neg]
    · simp [hfilt]
    · simp only [List.any_eq_true, not_exists]
      push_neg
      intro c hc
      simp [h5 c hc |>.1, h5 c hc |>.2]
    · simpa using h4
    · simp only [List.any_eq_true, not_exists]
      push_neg
      intro b hb
      simp [(h3 b hb).1, (h3 b hb).2]
    · simp [h2a, h2b]
    · simp [hc1]
  · intro hban hcount h2a h2b
    have hc3 : st.soft_bans.any
        (fun b => b.1 == BanId.Ip addr.ip || b.1 == BanId.Socket addr) = true := by
      rcases hban with ⟨b, hb, hi⟩
      refine List.any_eq_true.mpr ⟨b, hb, ?_⟩
      rcases hi with h | h <;> simp [h]
    have e1 : (pt == PeerType.Node
        && decide (peerStatsNodeCount st ≥ st.max_allowed_nodes)) = false := by
      cases pt
      · simp [not_le.mpr (hcount rfl)]
      · rfl
    have e2 : (st.self_addr == addr || pid == some st.self_id) = false := by
      simp [h2a, h2b]
    simp [connect, e1, e2, hc3]
  · intro hban hlimit h4 h5
    have hc3 : (st.soft_bans.map Prod.fst).any
        (fun b => b == BanId.Ip addr.ip) = true := by
      rcases hban with ⟨b, hb, hi⟩
      refine List.any_eq_true.mpr ⟨b.1, List.mem_map_of_mem _ hb, by simp [hi]⟩
    have e1 : (st.self_peer_type == PeerType.Node
        && decide (st.candidates.length + st.connections.length ≥
                     st.hard_connection_limit)) = false := by
      by_cases h : st.self_peer_type = PeerType.Node
      · simp [h, not_le.mpr (hlimit h)]
      · simp [h]
    have e2 : (st.candidates.contains addr
        || st.connections.any fun c => c.addr == addr) = false := by
      simp only [Bool.or_eq_false_iff]
      constructor
      · simpa using h4
      · simp only [List.any_eq_false]
        intro c hc
        simpa using h5 c hc
    simp [accept, e1, e2, hc3]

/-- C7 witness: the amended theorem applied at a concrete input. -/
theorem softban_dial_and_lookup_witness :
    (Connectivity.connect
        { stSoftBan with soft_bans := [(BanId.Ip 5, 7)] }
        PeerType.Node ⟨5, 9⟩ none true 0).ok = false := by
  have h := (softban_dial_and_lookup
    { stSoftBan with soft_bans := [(BanId.Ip 5, 7)] } ⟨5, 9⟩ none 0 PeerType.Node true).2.2.1
  have hres := h (by decide) (fun _ => by decide) (by decide) (by decide)
  rw [hres]

end Connectivity

namespace Connectivity

/-- C10: `accept` registers a new candidate connection only if no
existing candidate or established connection has the same remote socket
address and (for a Node-type node) only if the combined candidate and
established connection count is below the hard connection limit; when
either condition is violated, `accept` returns an error and no
connection is created. -/
theorem accept_gating (st : NodeState) (addr : SocketAddr) :
    (∀ st1 tok, accept st addr = some (st1, tok) →
        addr ∉ st.candidates
        ∧ (∀ c ∈ st.connections, c.addr ≠ addr)
        ∧ (st.self_peer_type = PeerType.Node →
             st.candidates.length + st.connections.length < st.hard_connection_limit)
        ∧ st1.candidates = st.candidates ++ [addr]
        ∧ st1.connections = st.connections)
    ∧ ((addr ∈ st.candidates ∨ (∃ c ∈ st.connections, c.addr = addr)
          ∨ (st.self_peer_type = PeerType.Node
              ∧ st.hard_connection_limit ≤ st.candidates.length + st.connections.length)) →
        accept st addr = none) := by
  constructor
  · intro st1 tok h
    unfold accept at h
    split at h
    · exact absurd h (by simp)
    · split at h
      · exact absurd h (by simp)
      · split at h
        · exact absurd h (by simp)
        · rename_i hcond1 hcond2 hcond3
          have hst : st1 = { st with
              candidates := st.candidates ++ [addr],
              next_token := st.next_token + 1 } := by
            have hp := Option.some.inj h
            exact (congrArg Prod.fst hp).symm
          subst hst
          simp only [Bool.or_eq_true, not_or, List.any_eq_true, not_exists,
            beq_iff_eq] at hcond2
          refine ⟨by simpa using hcond2.1, ?_, ?_, rfl, rfl⟩
          · intro c hc hca
            exact hcond2.2 c ⟨hc, hca⟩
          · intro hnode
            exact lt_of_not_ge (fun hge => by simp [hnode, hge] at hcond1)
  · intro hbad
    have e1 := Classical.em ((st.self_peer_type == PeerType.Node
        && decide (st.candidates.length + st.connections.length ≥
                     st.hard_connection_limit)) = true)
    unfold accept
    rcases e1 with h1 | h1
    · rw [if_pos h1]
    · rw [if_neg h1]
      have h2 : (st.candidates.contains addr
          || st.connections.any fun c => c.addr == addr) = true := by
        rcases hbad with hmem | ⟨c, hc, hca⟩ | ⟨hnode, hge⟩
        · simp [hmem]
        · have hany : st.connections.any (fun c => c.addr == addr) = true :=
            List.any_eq_true.mpr ⟨c, hc, by simp [hca]⟩
          simp [hany]
        · exact absurd (by simp [hnode, hge] : (st.self_peer_type == PeerType.Node
            && decide (st.candidates.length + st.connections.length ≥
                         st.hard_connection_limit)) = true) h1
      rw [if_pos h2]

/-- C10 witness: `accept_gating` applied at a concrete input (an accept
from a duplicate remote address is rejected). -/
theorem accept_gating_witness :
    accept { stSoftBan with candidates := [⟨3, 3⟩] } ⟨3, 3⟩ = none := by
  exact (accept_gating { stSoftBan with candidates := [⟨3, 3⟩] } ⟨3, 3⟩).2
    (Or.inl (by decide))

end Connectivity

namespace ConnMod

open Connectivity (PeerType)

/-- The connection-stat part of the outcome of every `process_message`
branch equals the stats updated at entry. -/
theorem processRest_conn (ctx : NodeCtx) (c : ConnState)
    (dq : DeduplicationQueues) (p : NetworkMessagePayload) :
    (processRest ctx c dq p).conn = c := by
  simp only [processRest]
  split
  · split <;> rfl
  · rfl

/-- C8 (amended): processing an inbound frame — whatever its content —
increments the connection's messages-received counter by one and sets
`last_seen` to the current timestamp unless the LOCAL node is a
bootstrapper, in which case `last_seen` is left untouched; the remote
peer's type plays no role in the update. -/
theorem stats_update (H : List Nat → Nat) (ctx : NodeCtx) (conn : ConnState)
    (dq : DeduplicationQueues) (des : Option NetworkMessagePayload) :
    (process_message H ctx conn dq des).conn.messages_received
        = conn.messages_received + 1
    ∧ (process_message H ctx conn dq des).conn.last_seen
        = (if ctx.node_peer_type = PeerType.Bootstrapper then conn.last_seen
           else ctx.now)
    ∧ (process_message H ctx conn dq des).conn.remote_peer_type
        = conn.remote_peer_type := by
  have hpm : (process_message H ctx conn dq des).conn
      = { update_last_seen ctx conn with
          messages_received := (update_last_seen ctx conn).messages_received + 1 } := by
    unfold process_message
    cases des with
    | none => rfl
    | some payload =>
      cases payload with
      | NetworkRequest req => exact processRest_conn ..
      | NetworkResponse r => exact processRest_conn ..
      | NetworkPacket packet =>
        simp only []
        split
        · rfl
        · rcases hdup : is_packet_duplicate H packet dq with - | ⟨b, p1, dq1⟩
          · rfl
          · cases b
            · exact processRest_conn ..
            · rfl
  rw [hpm]
  by_cases hb : ctx.node_peer_type = PeerType.Bootstrapper
  · simp [update_last_seen, hb]
  · simp [update_last_seen, hb]

/-- C8 counterexample: on a Node-type local node, a frame processed on a
connection whose REMOTE peer is a bootstrapper still updates `last_seen`
(from 0 to the current stamp 5) — the claim's exception ("last_seen is
not updated for bootstrapper peers") does not hold; the source exempts
connections of a bootstrapper-type LOCAL node instead. -/
theorem last_seen_counterexample :
    ((process_message (fun _ => 0) ⟨PeerType.Node, false, false, 5⟩
        ⟨true, PeerType.Bootstrapper, 0, 0⟩ DeduplicationQueues.default
        (some (NetworkMessagePayload.NetworkRequest NetworkRequest.Ping))).conn.last_seen
      = 5)
    ∧ (⟨true, PeerType.Bootstrapper, 0, 0⟩ : ConnState).remote_peer_type
        = PeerType.Bootstrapper
    ∧ (⟨true, PeerType.Bootstrapper, 0, 0⟩ : ConnState).last_seen = 0
    ∧ ((process_message (fun _ => 0) ⟨PeerType.Node, false, false, 5⟩
        ⟨true, PeerType.Bootstrapper, 0, 0⟩ DeduplicationQueues.default
        (some (NetworkMessagePayload.NetworkRequest NetworkRequest.Ping))).ok = true) := by
  decide

/-- Dedup queues whose Block queue already holds the digest 0: the state
after a first all-zero Block packet has been fingerprinted by the digest
function that is constantly 0. -/
def dqBlock0 : DeduplicationQueues :=
  { DeduplicationQueues.default with blocks := ⟨SHORT_DEDUP_SIZE, [0]⟩ }

/-- C3 counterexample: on a pre-handshake connection of a Node-type
local node, a NetworkPacket whose digest is already in the class's dedup
queue is dropped SILENTLY: `process_message` returns `Ok` (no error),
with nothing processed and nothing forwarded — contradicting the claim
that every non-handshake message on a pre-handshake connection causes
processing to fail with an error. -/
theorem prehandshake_silent_drop_counterexample :
    ((process_message (fun _ => 0) ⟨PeerType.Node, false, true, 5⟩
        ⟨false, PeerType.Node, 0, 0⟩ dqBlock0
        (some (NetworkMessagePayload.NetworkPacket ⟨9, ⟨[0, 0], 0⟩⟩))).ok = true)
    ∧ ((process_message (fun _ => 0) ⟨PeerType.Node, false, true, 5⟩
        ⟨false, PeerType.Node, 0, 0⟩ dqBlock0
        (some (NetworkMessagePayload.NetworkPacket ⟨9, ⟨[0, 0], 0⟩⟩))).handled = none)
    ∧ ((process_message (fun _ => 0) ⟨PeerType.Node, false, true, 5⟩
        ⟨false, PeerType.Node, 0, 0⟩ dqBlock0
        (some (NetworkMessagePayload.NetworkPacket ⟨9, ⟨[0, 0], 0⟩⟩))).forwarded_packet
      = false)
    ∧ isHandshakePayload (NetworkMessagePayload.NetworkPacket ⟨9, ⟨[0, 0], 0⟩⟩) = false := by
  decide

end ConnMod

namespace ConnMod

open Connectivity (PeerType)

/-- Pre-handshake behaviour of the tail of `process_message`: nothing is
forwarded, only handshakes are handed to `handle_incoming_message`, and
success implies the payload was a handshake. -/
theorem processRest_prehandshake (ctx : NodeCtx) (c : ConnState)
    (dq : DeduplicationQueues) (p : NetworkMessagePayload)
    (hc : c.is_post_handshake = false) :
    (processRest ctx c dq p).forwarded_packet = false
    ∧ (processRest ctx c dq p).forwarded_msg = false
    ∧ (∀ q, (processRest ctx c dq p).handled = some q → isHandshakePayload q = true)
    ∧ ((processRest ctx c dq p).ok = true → isHandshakePayload p = true) := by
  by_cases hh : isHandshakePayload p = true
  · cases p with
    | NetworkRequest req =>
      cases req <;> simp_all [processRest, isHandshakePayload]
    | NetworkResponse r =>
      cases r <;> simp_all [processRest, isHandshakePayload]
    | NetworkPacket pk => simp [isHandshakePayload] at hh
  · have hh2 : isHandshakePayload p = false := by simpa using hh
    simp [processRest, hh2, hc]

/-- C3 (amended): on a pre-handshake connection nothing is ever
forwarded and only Handshake requests/responses are processed; every
other decoded message either fails with an error or — for packets that
are deduplicated away or arrive at a bootstrapper-type local node, and
for undecodable frames — is silently dropped with a success result and
nothing processed. -/
theorem prehandshake_gating (H : List Nat → Nat) (ctx : NodeCtx)
    (conn : ConnState) (dq : DeduplicationQueues)
    (des : Option NetworkMessagePayload)
    (hpre : conn.is_post_handshake = false) :
    ((process_message H ctx conn dq des).forwarded_packet = false)
    ∧ ((process_message H ctx conn dq des).forwarded_msg = false)
    ∧ (∀ p, (process_message H ctx conn dq des).handled = some p →
          isHandshakePayload p = true)
    ∧ ((process_message H ctx conn dq des).ok = true →
        des = none
        ∨ (∃ p, des = some p ∧ isHandshakePayload p = true)
        ∨ (∃ pkt, des = some (NetworkMessagePayload.NetworkPacket pkt)
             ∧ (process_message H ctx conn dq des).handled = none)) := by
  have hpre2 : ({ update_last_seen ctx conn with
      messages_received := (update_last_seen ctx conn).messages_received + 1
      : ConnState }).is_post_handshake = false := by
    simp only [update_last_seen]
    split <;> simpa using hpre
  unfold process_message
  cases des with
  | none => exact ⟨rfl, rfl, (by intro p h; cases h), fun _ => Or.inl rfl⟩
  | some payload =>
    cases payload with
    | NetworkRequest req =>
      obtain ⟨h1, h2, h3, h4⟩ := processRest_prehandshake ctx _ dq
        (NetworkMessagePayload.NetworkRequest req) hpre2
      exact ⟨h1, h2, h3, fun hok => Or.inr (Or.inl ⟨_, rfl, h4 hok⟩)⟩
    | NetworkResponse r =>
      obtain ⟨h1, h2, h3, h4⟩ := processRest_prehandshake ctx _ dq
        (NetworkMessagePayload.NetworkResponse r) hpre2
      exact ⟨h1, h2, h3, fun hok => Or.inr (Or.inl ⟨_, rfl, h4 hok⟩)⟩
    | NetworkPacket packet =>
      simp only []
      split
      · exact ⟨rfl, rfl, (by intro p h; cases h), fun _ => Or.inr (Or.inr ⟨packet, rfl, rfl⟩)⟩
      · rcases hdup : is_packet_duplicate H packet dq with - | ⟨b, p1, dq1⟩
        · exact ⟨rfl, rfl, (by intro p h; cases h), (by intro hok; cases hok)⟩
        · cases b with
          | true =>
            exact ⟨rfl, rfl, (by intro p h; cases h),
              fun _ => Or.inr (Or.inr ⟨packet, rfl, rfl⟩)⟩
          | false =>
            obtain ⟨h1, h2, h3, h4⟩ := processRest_prehandshake ctx _ dq1
              (NetworkMessagePayload.NetworkPacket p1) hpre2
            refine ⟨h1, h2, h3, fun hok => ?_⟩
            exact absurd (h4 hok) (by simp [isHandshakePayload])

/-- C3 witness: the amended gating theorem applied at a concrete input
(a Ping on a fresh pre-handshake connection is neither processed nor
forwarded, and processing fails). -/
theorem prehandshake_gating_witness :
    (process_message (fun _ => 0) ⟨PeerType.Node, false, true, 5⟩
        ⟨false, PeerType.Node, 0, 0⟩ DeduplicationQueues.default
        (some (NetworkMessagePayload.NetworkRequest NetworkRequest.Ping))).forwarded_packet
      = false := by
  exact (prehandshake_gating (fun _ => 0) ⟨PeerType.Node, false, true, 5⟩
    ⟨false, PeerType.Node, 0, 0⟩ DeduplicationQueues.default
    (some (NetworkMessagePayload.NetworkRequest NetworkRequest.Ping)) (by decide)).1

end ConnMod

namespace ConnMod

open Connectivity (PeerType)

/-- Writing back the class queue one just read leaves the queues
unchanged. -/
theorem setClassQueue_self (dq : DeduplicationQueues) (cls : PacketType) :
    setClassQueue dq (classQueue dq cls) cls = dq := by
  cases cls <;> rfl

/-- Evaluation of `is_packet_duplicate` on a payload with a known class
tag: the deduplication fingerprint is the digest of the payload bytes
after the two tag bytes, the payload buffer comes back rewound with its
bytes intact, and the class queue receives the digest exactly on a
miss. -/
theorem is_packet_duplicate_eq (H : List Nat → Nat) (nid b0 b1 : Nat)
    (rest : List Nat) (cls : PacketType) (dq : DeduplicationQueues)
    (hcls : PacketType.tryFrom (b0 * 256 + b1) = some cls) :
    is_packet_duplicate H ⟨nid, ⟨b0 :: b1 :: rest, 0⟩⟩ dq
      = some ((classQueue dq cls).mem (H rest),
              ⟨nid, ⟨b0 :: b1 :: rest, 0⟩⟩,
              if (classQueue dq cls).mem (H rest) then dq
              else setClassQueue dq ((classQueue dq cls).push (H rest)) cls) := by
  have hread : HybridBuf.read_u16 ⟨b0 :: b1 :: rest, 0⟩
      = some (b0 * 256 + b1, ⟨b0 :: b1 :: rest, 2⟩) := rfl
  have hrem : HybridBuf.remaining_bytes ⟨b0 :: b1 :: rest, 2⟩ = rest := rfl
  unfold is_packet_duplicate
  rw [hread]
  simp only [hcls]
  by_cases hmem : (classQueue dq cls).mem (H rest) = true
  · simp [dedup_with, hrem, hmem, HybridBuf.rewind, setClassQueue_self]
  · have hmem2 : (classQueue dq cls).mem (H rest) = false := by simpa using hmem
    simp [dedup_with, hrem, hmem2, HybridBuf.rewind]

/-- C4: a packet whose class-queue still holds its payload digest is
classified as a duplicate and dropped — `process_message` succeeds with
nothing processed, nothing forwarded, and the queues untouched — while a
packet whose digest is absent has the digest pushed into its class's
queue; the push drops the oldest entry exactly when the queue is at
capacity.  Identical payload bytes yield the identical digest, so a
second copy arriving while the first digest is still queued is the
duplicate case. -/
theorem dedup_spec (H : List Nat → Nat) (ctx : NodeCtx) (conn : ConnState)
    (dq : DeduplicationQueues) (nid b0 b1 : Nat) (rest : List Nat)
    (cls : PacketType)
    (hnode : ctx.node_peer_type ≠ PeerType.Bootstrapper)
    (hcls : PacketType.tryFrom (b0 * 256 + b1) = some cls) :
    ((classQueue dq cls).mem (H rest) = true →
      process_message H ctx conn dq
          (some (NetworkMessagePayload.NetworkPacket ⟨nid, ⟨b0 :: b1 :: rest, 0⟩⟩))
        = ⟨true,
           { update_last_seen ctx conn with
             messages_received := (update_last_seen ctx conn).messages_received + 1 },
           dq, none, false, false⟩)
    ∧ ((classQueue dq cls).mem (H rest) = false →
        (process_message H ctx conn dq
            (some (NetworkMessagePayload.NetworkPacket ⟨nid, ⟨b0 :: b1 :: rest, 0⟩⟩))).queues
          = setClassQueue dq ((classQueue dq cls).push (H rest)) cls)
    ∧ ((classQueue dq cls).items.length ≥ (classQueue dq cls).capacity →
        ((classQueue dq cls).push (H rest)).items
          = H rest :: (classQueue dq cls).items.dropLast)
    ∧ ((classQueue dq cls).items.length < (classQueue dq cls).capacity →
        ((classQueue dq cls).push (H rest)).items
          = H rest :: (classQueue dq cls).items) := by
  have hB : (ctx.node_peer_type == PeerType.Bootstrapper) = false := by
    simpa using hnode
  have hipd := is_packet_duplicate_eq H nid b0 b1 rest cls dq hcls
  have hq : ∀ (c : ConnState) (dq2 : DeduplicationQueues)
      (p : NetworkMessagePayload), (processRest ctx c dq2 p).queues = dq2 := by
    intro c dq2 p
    simp only [processRest]
    split
    · split <;> rfl
    · rfl
  refine ⟨?_, ?_, ?_, ?_⟩
  · intro hmem
    simp [process_message, hB, hipd, hmem]
  · intro hmem
    simp [process_message, hB, hipd, hmem, hq]
  · intro hfull
    simp [CircularQueue.push, hfull]
  · intro hlt
    simp [CircularQueue.push, Nat.not_le.mpr hlt]

/-- C4 witness: `dedup_spec` applied at a concrete input — the second
copy of an all-zero Block packet is dropped as a duplicate with the
queues unchanged. -/
theorem dedup_spec_witness :
    process_message (fun _ => 0) ⟨PeerType.Node, false, false, 3⟩
        ⟨true, PeerType.Node, 0, 0⟩ dqBlock0
        (some (NetworkMessagePayload.NetworkPacket ⟨9, ⟨[0, 0], 0⟩⟩))
      = ⟨true, ⟨true, PeerType.Node, 3, 1⟩, dqBlock0, none, false, false⟩ := by
  have h := (dedup_spec (fun _ => 0) ⟨PeerType.Node, false, false, 3⟩
    ⟨true, PeerType.Node, 0, 0⟩ dqBlock0 9 0 0 [] PacketType.Block
    (by decide) (by decide)).1 (by decide)
  rw [h]
  rfl

/-- C9: the deduplication fingerprint of a packet with a known class
tag is the XxHash64 digest (`H`) of the payload bytes remaining AFTER
the leading `u16` class tag has been consumed — the tag itself is
excluded — and the payload buffer is rewound to its start afterwards,
so a non-duplicate packet on a live connection is processed and
forwarded with its payload bytes intact. -/
theorem fingerprint_spec (H : List Nat → Nat) (ctx : NodeCtx)
    (conn : ConnState) (dq : DeduplicationQueues) (nid b0 b1 : Nat)
    (rest : List Nat) (cls : PacketType)
    (hcls : PacketType.tryFrom (b0 * 256 + b1) = some cls) :
    (is_packet_duplicate H ⟨nid, ⟨b0 :: b1 :: rest, 0⟩⟩ dq
      = some ((classQueue dq cls).mem (H rest),
              ⟨nid, ⟨b0 :: b1 :: rest, 0⟩⟩,
              if (classQueue dq cls).mem (H rest) then dq
              else setClassQueue dq ((classQueue dq cls).push (H rest)) cls))
    ∧ ((classQueue dq cls).mem (H rest) = false →
       ctx.node_peer_type = PeerType.Node →
       conn.is_post_handshake = true →
       (process_message H ctx conn dq
           (some (NetworkMessagePayload.NetworkPacket ⟨nid, ⟨b0 :: b1 :: rest, 0⟩⟩))).handled
         = some (NetworkMessagePayload.NetworkPacket ⟨nid, ⟨b0 :: b1 :: rest, 0⟩⟩)
       ∧ (process_message H ctx conn dq
           (some (NetworkMessagePayload.NetworkPacket ⟨nid, ⟨b0 :: b1 :: rest, 0⟩⟩))).forwarded_packet
         = ctx.is_rpc_online) := by
  refine ⟨is_packet_duplicate_eq H nid b0 b1 rest cls dq hcls, ?_⟩
  intro hmem hctx hpost
  have hB : (ctx.node_peer_type == PeerType.Bootstrapper) = false := by
    simp [hctx]
  have hipd := is_packet_duplicate_eq H nid b0 b1 rest cls dq hcls
  have hup : (update_last_seen ctx conn).is_post_handshake = conn.is_post_handshake := by
    simp only [update_last_seen]
    split <;> rfl
  cases hrpc : ctx.is_rpc_online <;>
    simp [process_message, hB, hipd, hmem, processRest, isHandshakePayload,
      hup, hpost, hrpc]

/-- C9 witness: `fingerprint_spec` applied at a concrete input. -/
theorem fingerprint_spec_witness :
    is_packet_duplicate (fun _ => 7) ⟨9, ⟨[0, 0, 5], 0⟩⟩ DeduplicationQueues.default
      = some (false, ⟨9, ⟨[0, 0, 5], 0⟩⟩,
          setClassQueue DeduplicationQueues.default
            ((classQueue DeduplicationQueues.default PacketType.Block).push 7)
            PacketType.Block) := by
  have h := (fingerprint_spec (fun _ => 7) ⟨PeerType.Node, false, false, 0⟩
    ⟨true, PeerType.Node, 0, 0⟩ DeduplicationQueues.default 9 0 0 [5]
    PacketType.Block (by decide)).1
  rw [h]
  decide

end ConnMod

namespace OldP2p

/-- Buckets after inserting the peer with id 4 (own id 0, so XOR
distance 4, bucket index 2) and then calling `update_network_ids` for
the same peer. -/
def bkC5 : Buckets :=
  ((Buckets.new).insert_into_bucket ⟨4, 0⟩ 0 []).update_network_ids ⟨4, 0⟩ []

set_option maxRecDepth 8000 in
/-- C5: evaluated at the failing input, `insert_into_bucket` places the
peer once (in bucket 2), but a subsequent `update_network_ids` for the
very same peer appends a second copy into bucket 0 — its loop `break`s
after touching only the first bucket — leaving two entries with NodeId
4 across the buckets, violating the uniqueness invariant. -/
theorem bucket_duplicate_entry :
    (((Buckets.new).insert_into_bucket ⟨4, 0⟩ 0 []).countId 4 = 1)
    ∧ bkC5.countId 4 = 2 := by
  decide

/-- The initial framing state of a fresh normal-mode connection. -/
def stFrame : ConnFraming :=
  { expected_size := 0, currently_read := 0, pkt_buffer := none,
    pkt_valid := false, pkt_validated := false, closing := false,
    mode := P2PNodeMode.NormalMode }

/-- C2 counterexample: a read whose 4-byte big-endian length prefix
decodes to 0xFF000000 > 2^28 does NOT terminate the connection: the
oversized prefix is discarded, parsing continues with the following
bytes of the same read, and a subsequent 1-byte frame IS assembled and
processed (`closing` stays false) — contradicting the claim that the
connection is terminated and no further frames are read. -/
theorem oversize_continue_counterexample :
    ((incoming_plaintext 5 stFrame
        ([255, 0, 0, 0] ++ [0, 0, 0, 1] ++ [97])).2 = [[97]])
    ∧ ((incoming_plaintext 5 stFrame
        ([255, 0, 0, 0] ++ [0, 0, 0, 1] ++ [97])).1.closing = false)
    ∧ read_u32_be 255 0 0 0 > 268435456 := by
  decide

end OldP2p

namespace OldP2p

/-- The `clear_buffer` does not touch the closing flag. -/
theorem clear_buffer_closing (st : ConnFraming) :
    (clear_buffer st).closing = st.closing := rfl

/-- The `clear_buffer` does not touch the mode. -/
theorem clear_buffer_mode (st : ConnFraming) :
    (clear_buffer st).mode = st.mode := rfl

/-- The `append_buffer` does not touch the closing flag. -/
theorem append_buffer_closing (st : ConnFraming) (l : List Nat) :
    (append_buffer st l).closing = st.closing := by
  unfold append_buffer
  split <;> rfl

/-- The `append_buffer` does not touch the mode. -/
theorem append_buffer_mode (st : ConnFraming) (l : List Nat) :
    (append_buffer st l).mode = st.mode := by
  unfold append_buffer
  split <;> rfl

/-- With no frame in progress, `validate_packet` leaves
`expected_size` at zero. -/
theorem validate_packet_expected (st : ConnFraming)
    (h0 : st.expected_size = 0) :
    (validate_packet st).expected_size = 0 := by
  unfold validate_packet
  repeat' split
  all_goals
    simp [apply_ite (fun s : ConnFraming => s.expected_size), h0]

/-- On a normal-mode connection `validate_packet` never closes the
connection and never changes the mode. -/
theorem validate_packet_closing_mode (st : ConnFraming)
    (hm : st.mode = P2PNodeMode.NormalMode
       ∨ st.mode = P2PNodeMode.NormalPrivateMode) :
    (validate_packet st).closing = st.closing
    ∧ (validate_packet st).mode = st.mode := by
  have hb : (st.mode == P2PNodeMode.BootstrapperMode
      || st.mode == P2PNodeMode.BootstrapperPrivateMode) = false := by
    rcases hm with h | h <;> simp [h]
  unfold validate_packet
  repeat' split
  all_goals simp_all

/-- C2 (amended): a 4-byte big-endian length prefix decoding to more
than 2^28 is rejected — `expected_size` is reset to zero and no buffer
is set up — but the connection is NOT terminated: parsing continues
with the remaining bytes of the same read as though they started a new
frame, and on a normal-mode connection the frame-assembly layer never
sets the closing flag at all. -/
theorem oversize_rejected_not_terminated :
    (∀ (fuel : Nat) (st : ConnFraming) (b0 b1 b2 b3 : Nat) (rest : List Nat),
        read_u32_be b0 b1 b2 b3 > 268435456 →
        st.expected_size = 0 →
        incoming_plaintext (fuel + 1) st (b0 :: b1 :: b2 :: b3 :: rest)
          = incoming_plaintext fuel
              { validate_packet st with expected_size := 0 } rest)
    ∧ (∀ (fuel : Nat) (st : ConnFraming) (buf : List Nat),
        st.mode = P2PNodeMode.NormalMode
          ∨ st.mode = P2PNodeMode.NormalPrivateMode →
        (incoming_plaintext fuel st buf).1.closing = st.closing) := by
  constructor
  · intro fuel st b0 b1 b2 b3 rest hsize h0
    have h0v : (validate_packet st).expected_size = 0 :=
      validate_packet_expected st h0
    have hlen : (b0 :: b1 :: b2 :: b3 :: rest).length ≥ 4 := by
      simp
    simp [incoming_plaintext, h0v, hsize, hlen]
  · intro fuel
    induction fuel with
    | zero =>
      intro st buf hm
      rfl
    | succ n ih =>
      intro st buf hm
      obtain ⟨hc, hmd⟩ := validate_packet_closing_mode st hm
      have hm2 : (validate_packet st).mode = P2PNodeMode.NormalMode
          ∨ (validate_packet st).mode = P2PNodeMode.NormalPrivateMode := by
        rw [hmd]; exact hm
      simp only [incoming_plaintext]
      repeat' split
      all_goals
        first
        | exact hc
        | exact (append_buffer_closing _ _).trans hc
        | exact (ih _ _ hm2).trans hc
        | exact (ih _ _ (by
              simpa only [clear_buffer_mode, append_buffer_mode] using hm2)).trans
            (by simpa only [clear_buffer_closing, append_buffer_closing] using hc)

/-- C2 witness: the amended theorem applied at concrete inputs — an
oversized prefix hands the remaining bytes straight back to the parser,
and a normal-mode connection keeps its closing flag. -/
theorem oversize_rejected_not_terminated_witness :
    (incoming_plaintext 3 stFrame [255, 0, 0, 0, 7]
      = incoming_plaintext 2 { validate_packet stFrame with expected_size := 0 } [7])
    ∧ (incoming_plaintext 5 stFrame [1, 2, 3]).1.closing = stFrame.closing := by
  constructor
  · exact oversize_rejected_not_terminated.1 2 stFrame 255 0 0 0 [7]
      (by decide) (by decide)
  · exact oversize_rejected_not_terminated.2 5 stFrame [1, 2, 3] (Or.inl rfl)

end OldP2p
